import Mathlib

/-!
Shallow embedding of `src/static/browser_notifications.js` (class
`BrowserNotificationManager`) and proofs about its polling, deduplication
and permission logic.

Modelling conventions:
* JS numbers that hold notification ids, job ids and timer handles are
  modelled as `Nat`.
* `null`/`undefined`-able fields are `Option`; JS truthiness of a number
  is `n ≠ 0` on the `some` case and `false` on `none`; truthiness of a
  string is `s ≠ ""`.
* The DOM/Canvas/Audio side effects are recorded as an `Effect` trace:
  `fetchReq` (an HTTP fetch was issued), `log` (a console message),
  `display` (a `new Notification(...)` was constructed) and `sound`
  (the notification tone was played).  Purely visual DOM helpers
  (`showPermissionPrompt`, `dismissPrompt`, the success/denied banners)
  build HTML strings only and touch none of the state the claims are
  about; they are not part of the embedded fragment.
* The browser timer table is made explicit: `setInterval` allocates a
  fresh positive handle into `World.activeTimers`, `clearInterval`
  deactivates a handle, and `elapse` models one interval period going by,
  firing every still-active interval timer once (every timer in this
  model was registered by `startMonitoring` with callback
  `checkForNewNotifications`).
-/

/-- One element of the `data.notifications` array returned by
`GET /api/notifications?unread_only=true&limit=5`. -/
structure Notif where
  notification_id : Nat
  title : String
  message : String
  type : String
  job_id : Option Nat
deriving Repr, DecidableEq

/-- Outcome of one `fetch` + `response.json()` round trip: `failure` is a
transport error or malformed body (the `catch` path), `response` is a
parsed JSON body with its `success` flag and `notifications` array. -/
inductive FetchResult where
  | failure : FetchResult
  | response (success : Bool) (notifications : List Notif) : FetchResult
deriving Repr, DecidableEq

/-- The `data` payload attached to a constructed `Notification`. -/
structure NotifData where
  notification_id : Option Nat
  job_id : Option Nat
  url : Option String
deriving Repr, DecidableEq

/-- Observable side effects of the manager, in program order. -/
inductive Effect where
  | fetchReq : Effect
  | log (msg : String) : Effect
  | display (title body icon resolvedIcon tag : String) (d : NotifData) : Effect
  | sound : Effect
deriving Repr, DecidableEq

/-- The mutable fields of a `BrowserNotificationManager` instance.
`notificationSound` records whether `createNotificationSound` managed to
install a sound closure; `monitoringInterval` is the stored
`setInterval` handle (never cleared back to `none` by the code). -/
structure ManagerState where
  permission : String
  checkInterval : Nat
  lastNotificationId : Option Nat
  notificationSound : Bool
  monitoringInterval : Option Nat
deriving Repr, DecidableEq

/-- An interval timer registered with the browser. -/
structure Timer where
  id : Nat
  intervalMs : Nat
deriving Repr, DecidableEq

/-- Manager instance plus the browser timer table. -/
structure World where
  manager : ManagerState
  activeTimers : List Timer
  nextTimerId : Nat
deriving Repr, DecidableEq

/-- JS truthiness of a number stored in a nullable field. -/
def truthyOptNat : Option Nat → Bool
  | none => false
  | some n => n != 0

/-- JS truthiness of a string. -/
def truthyStr (s : String) : Bool := s != ""

/-- JS `String.prototype.length` counts UTF-16 code units: code points at
or above `0x10000` take a surrogate pair. -/
def jsLength (s : String) : Nat :=
  (s.data.map (fun c => if c.toNat ≥ 0x10000 then 2 else 1)).sum

/-- `emojiToDataURL` rasterizes a glyph onto a 128x128 canvas and returns
`canvas.toDataURL()`.  The pixel payload is opaque to this development;
the result is modelled as a tag of the input glyph.  No claim depends on
the string produced here, only on which icon argument reaches it. -/
def emojiToDataURL (emoji : String) : String :=
  "data:image/png;base64,canvas-" ++ emoji

/-- The `jobId ? /jobs#job-id : /jobs` URL computation (JS truthiness:
`job_id = 0` routes to plain `/jobs`). -/
def jobUrl : Option Nat → String
  | none => "/jobs"
  | some j => if j != 0 then "/jobs#job-" ++ toString j else "/jobs"

/-- `playSound()`: plays the tone iff a sound closure exists. -/
def playSound (st : ManagerState) : List Effect :=
  if st.notificationSound then [Effect.sound] else []

/-- Argument object of `showNotification`. -/
structure ShowArgs where
  title : String
  body : String
  icon : String
  tag : String
  data : NotifData
deriving Repr, DecidableEq

/-- `showNotification({title, body, icon, tag, data})`: guard on
permission, resolve the icon (the bell glyph maps to a bundled png, then
any short glyph string is re-resolved through the canvas rasterizer),
construct the `Notification`, play the sound.  The click handler and the
10s auto-close touch no manager state and are not traced. -/
def showNotification (st : ManagerState) (args : ShowArgs) : List Effect :=
  if st.permission != "granted" then
    [Effect.log "⊘ Cannot show notification - permission not granted"]
  else
    let icon0 : String :=
      if args.icon = "🔔" then "/static/icon-bell.png"
      else if truthyStr args.icon then args.icon else "/static/icon-job.png"
    let iconR : String :=
      if truthyStr args.icon && decide (jsLength args.icon ≤ 2) then
        emojiToDataURL args.icon
      else icon0
    let tagR : String := if truthyStr args.tag then args.tag else "job-notification"
    Effect.display args.title args.body args.icon iconR tagR args.data :: playSound st

/-- Icon chosen inside the `checkForNewNotifications` loop
(lines 378-382 of the source). -/
def pollIcon (t : String) : String :=
  if t = "critical" then "🔥"
  else if t = "urgent" then "⚡"
  else if t = "new_job" then "💼"
  else "🔔"

/-- The `icons` object literal inside `triggerNotification`
(lines 410-417), as a lookup returning `none` on a missing key. -/
def manualIcons (t : String) : Option String :=
  if t = "critical" then some "🔥"
  else if t = "urgent" then some "⚡"
  else if t = "new_job" then some "💼"
  else if t = "deadline" then some "⏰"
  else if t = "success" then some "✅"
  else if t = "info" then some "💡"
  else none

/-- `icons[type] || '🔔'` in `triggerNotification`. -/
def manualIcon (t : String) : String := (manualIcons t).getD "🔔"

/-- The skip test of the poll loop:
`this.lastNotificationId && notif.notification_id <= this.lastNotificationId`. -/
def alreadySeen (wm : Option Nat) (id : Nat) : Bool :=
  match wm with
  | none => false
  | some v => (v != 0) && decide (id ≤ v)

/-- Effects contributed by one `notif` of the poll loop body
(lines 372-396): skip when already seen, otherwise show a notification
with the category icon, the per-id tag and the id/job payload. -/
def pollItemEffects (st : ManagerState) (n : Notif) : List Effect :=
  if alreadySeen st.lastNotificationId n.notification_id then []
  else
    showNotification st
      { title := n.title
        body := n.message
        icon := pollIcon n.type
        tag := "notification-" ++ toString n.notification_id
        data :=
          { notification_id := some n.notification_id
            job_id := n.job_id
            url := some (jobUrl n.job_id) } }

/-- The `notifications.forEach(...)` loop of `checkForNewNotifications`:
per-item effects in batch order, all judged against the same pre-batch
state (the watermark is only written after the loop). -/
def batchEffects (st : ManagerState) (l : List Notif) : List Effect :=
  l.foldr (fun n acc => pollItemEffects st n ++ acc) []

/-- `Math.max(...notifications.map(n => n.notification_id))` (guarded by
`notifications.length > 0` at the call site; `Nat` ids make the `0` seed
exact for non-empty batches). -/
def batchMax (l : List Notif) : Nat :=
  l.foldl (fun m n => max m n.notification_id) 0

/-- `checkForNewNotifications()` on the manager fields: issue the fetch;
on a thrown error log and change nothing; on `success:false` return
silently; otherwise show each not-yet-seen item against the pre-batch
watermark, then overwrite `lastNotificationId` with the batch maximum
when the batch is non-empty. -/
def checkForNewNotifications (st : ManagerState) (fr : FetchResult) :
    ManagerState × List Effect :=
  match fr with
  | .failure => (st, [Effect.fetchReq, Effect.log "Error checking notifications:"])
  | .response success notifications =>
    if success = false then (st, [Effect.fetchReq])
    else
      let effs := batchEffects st notifications
      let st1 :=
        if notifications.length > 0 then
          { st with lastNotificationId := some (batchMax notifications) }
        else st
      (st1, Effect.fetchReq :: effs)

/-- `startMonitoring()`: log, run one check immediately, then register a
fresh interval timer at `checkInterval` ms and store its handle. -/
def startMonitoring (w : World) (fr : FetchResult) : World × List Effect :=
  let r := checkForNewNotifications w.manager fr
  ({ manager := { r.1 with monitoringInterval := some w.nextTimerId }
     activeTimers := { id := w.nextTimerId, intervalMs := r.1.checkInterval } :: w.activeTimers
     nextTimerId := w.nextTimerId + 1 },
   Effect.log "🔄 Starting notification monitoring..." :: r.2
     ++ [Effect.log ("✅ Monitoring every " ++ toString (r.1.checkInterval / 1000) ++ " seconds")])

/-- `stopMonitoring()`: `if (this.monitoringInterval) clearInterval(...)`.
The handle field itself is left in place by the code. -/
def stopMonitoring (w : World) : World × List Effect :=
  match w.manager.monitoringInterval with
  | none => (w, [])
  | some tid =>
    if tid != 0 then
      ({ w with activeTimers := w.activeTimers.filter (fun t => t.id != tid) },
       [Effect.log "⏹️ Monitoring stopped"])
    else (w, [])

/-- `triggerNotification(type, title, message, jobId)`: pure fan-out to
`showNotification`; `Date.now()` is the `now` parameter. -/
def triggerNotification (w : World) (t title message : String)
    (jobId : Option Nat) (now : Nat) : World × List Effect :=
  (w, showNotification w.manager
    { title := title
      body := message
      icon := manualIcon t
      tag := "manual-" ++ toString now
      data := { notification_id := none, job_id := jobId, url := some (jobUrl jobId) } })

/-- Fire every active interval timer once; each registered callback is
`() => this.checkForNewNotifications()` on the same instance. -/
def fireTimers (st : ManagerState) (ts : List Timer) (fr : FetchResult) :
    ManagerState × List Effect :=
  match ts with
  | [] => (st, [])
  | _ :: rest =>
    let r := checkForNewNotifications st fr
    let r2 := fireTimers r.1 rest fr
    (r2.1, r.2 ++ r2.2)

/-- One interval period elapsing. -/
def elapse (w : World) (fr : FetchResult) : World × List Effect :=
  let r := fireTimers w.manager w.activeTimers fr
  ({ w with manager := r.1 }, r.2)

/-- The constructor (lines 7-13): permission copied from the platform,
a 30000 ms poll interval, no watermark, no sound closure, no timer. -/
def mkManager (platformPermission : String) : ManagerState :=
  { permission := platformPermission
    checkInterval := 30000
    lastNotificationId := none
    notificationSound := false
    monitoringInterval := none }

/-- A freshly loaded page: constructed manager, empty timer table,
handles allocated from 1 (browser interval ids are positive). -/
def mkWorld (platformPermission : String) : World :=
  { manager := mkManager platformPermission, activeTimers := [], nextTimerId := 1 }

/-- `createNotificationSound()`: installs the sound closure iff an
`AudioContext` implementation exists (the closure body is pure audio
output, traced as `Effect.sound` by `playSound`). -/
def createNotificationSound (st : ManagerState) (audioAvailable : Bool) : ManagerState :=
  if audioAvailable then { st with notificationSound := true } else st

/-- `requestPermission()`: store the user response; on grant, start
monitoring and show the test notification; otherwise show the denied
banner. -/
def requestPermission (w : World) (resp : String) (fr : FetchResult) :
    World × List Effect :=
  let w1 := { w with manager := { w.manager with permission := resp } }
  if resp = "granted" then
    let r := startMonitoring w1 fr
    let testEffs := showNotification r.1.manager
      { title := "🎉 Notifications Enabled!"
        body := "You will now receive alerts for new jobs and urgent deadlines"
        icon := "🔔"
        tag := "test-notification"
        data := { notification_id := none, job_id := none, url := none } }
    (r.1, Effect.log "✅ Notification permission granted!" :: r.2 ++ testEffs)
  else
    (w1, [Effect.log "⊘ Notification permission denied"])

/-! ## Derived run functions and trace observations -/

/-- Run a sequence of poll ticks against the manager fields, threading
state and concatenating the effect traces. -/
def runPolls (st : ManagerState) : List FetchResult → ManagerState × List Effect
  | [] => (st, [])
  | fr :: rest =>
    let r := checkForNewNotifications st fr
    let r2 := runPolls r.1 rest
    (r2.1, r.2 ++ r2.2)

/-- One externally triggerable operation of the manager (the permission
write path `requestPermission` is kept separate: the claims about frame
conditions quantify over these five operations plus timer elapse). -/
inductive Op where
  | poll (fr : FetchResult) : Op
  | showCall (args : ShowArgs) : Op
  | start (fr : FetchResult) : Op
  | stop : Op
  | manual (t title message : String) (jobId : Option Nat) (now : Nat) : Op
  | timeElapse (fr : FetchResult) : Op
deriving Repr, DecidableEq

/-- Small-step interpreter over the world. -/
def step (w : World) : Op → World × List Effect
  | .poll fr =>
    let r := checkForNewNotifications w.manager fr
    ({ w with manager := r.1 }, r.2)
  | .showCall args => (w, showNotification w.manager args)
  | .start fr => startMonitoring w fr
  | .stop => stopMonitoring w
  | .manual t title message jobId now => triggerNotification w t title message jobId now
  | .timeElapse fr => elapse w fr

/-- Run a sequence of operations. -/
def runOps (w : World) : List Op → World × List Effect
  | [] => (w, [])
  | op :: rest =>
    let r := step w op
    let r2 := runOps r.1 rest
    (r2.1, r.2 ++ r2.2)

/-- Elapse many interval periods in a row. -/
def elapseRun (w : World) : List FetchResult → World × List Effect
  | [] => (w, [])
  | fr :: rest =>
    let r := elapse w fr
    let r2 := elapseRun r.1 rest
    (r2.1, r.2 ++ r2.2)

/-- Is the effect an issued HTTP fetch? -/
def isFetch : Effect → Bool
  | .fetchReq => true
  | _ => false

/-- Is the effect a console log? -/
def isLog : Effect → Bool
  | .log _ => true
  | _ => false

/-- Is the effect a constructed platform notification? -/
def isDisplay : Effect → Bool
  | .display _ _ _ _ _ _ => true
  | _ => false

/-- Is the effect the played tone? -/
def isSound : Effect → Bool
  | .sound => true
  | _ => false

/-- Is the effect a displayed notification carrying `notification_id = i`? -/
def isDisplayOfId (i : Nat) : Effect → Bool
  | .display _ _ _ _ _ d => d.notification_id == some i
  | _ => false

/-- Number of fetches in a trace. -/
def countFetches (effs : List Effect) : Nat := (effs.filter isFetch).length

/-- Number of displays of notification id `i` in a trace. -/
def countDisplays (i : Nat) (effs : List Effect) : Nat :=
  (effs.filter (isDisplayOfId i)).length

/-- Ids of all displayed notifications, in display order. -/
def displayedIds (effs : List Effect) : List Nat :=
  effs.filterMap (fun e =>
    match e with
    | .display _ _ _ _ _ d => d.notification_id
    | _ => none)

/-! ## Watermark bookkeeping predicates -/

/-- Watermark after one tick, as a function of the fetch outcome. -/
def nextWm (wm : Option Nat) : FetchResult → Option Nat
  | .failure => wm
  | .response success l =>
    if success = false then wm
    else if l.length > 0 then some (batchMax l) else wm

/-- Order on watermarks: `none` (unset) below everything, values by `≤`. -/
def wmLe (a b : Option Nat) : Bool :=
  match a, b with
  | none, _ => true
  | some _, none => false
  | some v, some v2 => decide (v ≤ v2)

/-- A successful non-empty batch whose maximum id is at least the current
watermark value (the condition under which the watermark update of
line 400 cannot go down). -/
def tickMaxOk (wm : Option Nat) : FetchResult → Bool
  | .failure => true
  | .response success l =>
    if success = false then true
    else
      match wm, l with
      | some v, _ :: _ => decide (v ≤ batchMax l)
      | _, _ => true

/-- `tickMaxOk` holding at every tick of a run, against the watermark the
run itself produces. -/
def maxOkRun (wm : Option Nat) : List FetchResult → Bool
  | [] => true
  | fr :: rest => tickMaxOk wm fr && maxOkRun (nextWm wm fr) rest

/-- Batch sanity for the dedup argument: all ids positive (so the stored
watermark stays truthy) and no id repeated inside one batch. -/
def idsOkBatch (l : List Notif) : Bool :=
  l.all (fun n => decide (1 ≤ n.notification_id))
    && decide (l.map (fun n => n.notification_id)).Nodup

/-- A run on which at-most-once display is provable: every successful
batch has positive, in-batch-distinct ids and a maximum at or above the
current watermark. -/
def goodRun (wm : Option Nat) : List FetchResult → Bool
  | [] => true
  | fr :: rest =>
    (match fr with
     | .response true l => idsOkBatch l
     | _ => true)
      && tickMaxOk wm fr && goodRun (nextWm wm fr) rest

/-! ## Concrete fixtures -/

/-- A batch item with the given id and a fixed payload. -/
def nf (i : Nat) : Notif :=
  { notification_id := i, title := "t", message := "m", type := "new_job", job_id := none }

/-- A granted manager as produced by a fresh page load. -/
def grantedManager : ManagerState := mkManager "granted"

/-- A granted world with one registered poll timer, as reached by
`startMonitoring` from a fresh page. -/
def monitoredWorld : World :=
  { manager := { grantedManager with monitoringInterval := some 1 }
    activeTimers := [{ id := 1, intervalMs := 30000 }]
    nextTimerId := 2 }

/-! ## Basic lemmas about one tick -/

theorem check_state_eq (st : ManagerState) (fr : FetchResult) :
    (checkForNewNotifications st fr).1
      = { st with lastNotificationId := nextWm st.lastNotificationId fr } := by
  cases fr with
  | failure => rfl
  | response success l =>
    simp only [checkForNewNotifications, nextWm]
    split
    · rfl
    · split <;> rfl

theorem check_permission (st : ManagerState) (fr : FetchResult) :
    (checkForNewNotifications st fr).1.permission = st.permission := by
  rw [check_state_eq]

theorem check_interval_eq (st : ManagerState) (fr : FetchResult) :
    (checkForNewNotifications st fr).1.checkInterval = st.checkInterval := by
  rw [check_state_eq]

theorem check_monitoring_eq (st : ManagerState) (fr : FetchResult) :
    (checkForNewNotifications st fr).1.monitoringInterval = st.monitoringInterval := by
  rw [check_state_eq]

theorem check_wm (st : ManagerState) (fr : FetchResult) :
    (checkForNewNotifications st fr).1.lastNotificationId
      = nextWm st.lastNotificationId fr := by
  rw [check_state_eq]

theorem check_effects_failure (st : ManagerState) :
    (checkForNewNotifications st .failure).2
      = [Effect.fetchReq, Effect.log "Error checking notifications:"] := rfl

theorem check_effects_unsuccessful (st : ManagerState) (l : List Notif) :
    (checkForNewNotifications st (.response false l)).2 = [Effect.fetchReq] := rfl

theorem check_effects_success (st : ManagerState) (l : List Notif) :
    (checkForNewNotifications st (.response true l)).2
      = Effect.fetchReq :: batchEffects st l := rfl

/-! ## Counting displays -/

theorem countDisplays_append (i : Nat) (a b : List Effect) :
    countDisplays i (a ++ b) = countDisplays i a + countDisplays i b := by
  simp [countDisplays, List.filter_append]

theorem countFetches_append (a b : List Effect) :
    countFetches (a ++ b) = countFetches a + countFetches b := by
  simp [countFetches, List.filter_append]

theorem displayedIds_append (a b : List Effect) :
    displayedIds (a ++ b) = displayedIds a ++ displayedIds b := by
  simp [displayedIds, List.filterMap_append]

theorem countDisplays_playSound (i : Nat) (st : ManagerState) :
    countDisplays i (playSound st) = 0 := by
  simp only [playSound]
  split <;> rfl

theorem countDisplays_pollItem (st : ManagerState) (n : Notif) (i : Nat) :
    countDisplays i (pollItemEffects st n)
      = if alreadySeen st.lastNotificationId n.notification_id = false
            ∧ st.permission = "granted" ∧ n.notification_id = i
        then 1 else 0 := by
  simp only [pollItemEffects, showNotification]
  split
  · rename_i hseen
    simp [countDisplays, hseen]
  · rename_i hseen
    rw [Bool.not_eq_true] at hseen
    split
    · rename_i hperm
      simp only [bne_iff_ne, ne_eq] at hperm
      simp [countDisplays, isDisplayOfId, hseen, hperm]
    · rename_i hperm
      simp only [bne_iff_ne, ne_eq, not_not] at hperm
      have hps : List.filter (isDisplayOfId i) (playSound st) = [] := by
        simp only [playSound]
        split <;> rfl
      by_cases hid : n.notification_id = i
      · subst hid
        simp [countDisplays, isDisplayOfId, hseen, hperm, List.filter_cons, hps]
      · simp [countDisplays, isDisplayOfId, hseen, hperm, hid, List.filter_cons, hps]

theorem countDisplays_batchEffects_cons (st : ManagerState) (n : Notif)
    (l : List Notif) (i : Nat) :
    countDisplays i (batchEffects st (n :: l))
      = countDisplays i (pollItemEffects st n) + countDisplays i (batchEffects st l) := by
  simp [batchEffects, countDisplays_append]

theorem countDisplays_batchEffects_not_mem (st : ManagerState) (l : List Notif) (i : Nat)
    (h : i ∉ l.map (fun n => n.notification_id)) :
    countDisplays i (batchEffects st l) = 0 := by
  induction l with
  | nil => rfl
  | cons n l ih =>
    simp only [List.map_cons, List.mem_cons, not_or] at h
    rw [countDisplays_batchEffects_cons, countDisplays_pollItem, ih h.2]
    have : ¬ n.notification_id = i := fun hc => h.1 hc.symm
    simp [this]

theorem countDisplays_batchEffects_blocked (st : ManagerState) (l : List Notif) (i : Nat)
    (h : alreadySeen st.lastNotificationId i = true) :
    countDisplays i (batchEffects st l) = 0 := by
  induction l with
  | nil => rfl
  | cons n l ih =>
    rw [countDisplays_batchEffects_cons, countDisplays_pollItem, ih]
    by_cases hid : n.notification_id = i
    · subst hid
      simp [h]
    · simp [hid]

theorem countDisplays_batchEffects_le_one (st : ManagerState) (l : List Notif) (i : Nat)
    (h : (l.map (fun n => n.notification_id)).Nodup) :
    countDisplays i (batchEffects st l) ≤ 1 := by
  induction l with
  | nil => exact Nat.zero_le 1
  | cons n l ih =>
    simp only [List.map_cons, List.nodup_cons] at h
    rw [countDisplays_batchEffects_cons, countDisplays_pollItem]
    by_cases hid : n.notification_id = i
    · subst hid
      rw [countDisplays_batchEffects_not_mem st l _ h.1]
      split <;> simp
    · simp only [hid, and_false, if_false, Nat.zero_add]
      exact ih h.2

theorem countDisplays_batchEffects_mem (st : ManagerState) (l : List Notif) (i : Nat)
    (h : countDisplays i (batchEffects st l) ≠ 0) :
    i ∈ l.map (fun n => n.notification_id) := by
  by_contra hmem
  exact h (countDisplays_batchEffects_not_mem st l i hmem)

/-! ## `batchMax` bounds -/

theorem batchMax_foldl_seed_le (l : List Notif) :
    ∀ a : Nat, a ≤ l.foldl (fun m n => max m n.notification_id) a := by
  induction l with
  | nil => intro a; exact Nat.le_refl a
  | cons n l ih =>
    intro a
    exact Nat.le_trans (Nat.le_max_left a n.notification_id) (ih (max a n.notification_id))

theorem mem_le_batchMax_foldl (l : List Notif) (n : Notif) (hmem : n ∈ l) :
    ∀ a : Nat, n.notification_id ≤ l.foldl (fun m n => max m n.notification_id) a := by
  induction l with
  | nil => cases hmem
  | cons m l ih =>
    intro a
    rcases List.mem_cons.mp hmem with h | h
    · subst h
      exact Nat.le_trans (Nat.le_max_right a n.notification_id)
        (batchMax_foldl_seed_le l (max a n.notification_id))
    · exact ih h (max a m.notification_id)

theorem mem_le_batchMax (l : List Notif) (n : Notif) (hmem : n ∈ l) :
    n.notification_id ≤ batchMax l :=
  mem_le_batchMax_foldl l n hmem 0

theorem mem_id_le_batchMax (l : List Notif) (i : Nat)
    (h : i ∈ l.map (fun n => n.notification_id)) : i ≤ batchMax l := by
  rcases List.mem_map.mp h with ⟨n, hn, rfl⟩
  exact mem_le_batchMax l n hn

/-! ## Watermark order lemmas -/

theorem wmLe_refl (a : Option Nat) : wmLe a a = true := by
  cases a <;> simp [wmLe]

theorem wmLe_trans (a b c : Option Nat)
    (h1 : wmLe a b = true) (h2 : wmLe b c = true) : wmLe a c = true := by
  cases a with
  | none => rfl
  | some v =>
    cases b with
    | none => simp [wmLe] at h1
    | some v2 =>
      cases c with
      | none => simp [wmLe] at h2
      | some v3 =>
        simp only [wmLe, decide_eq_true_eq] at h1 h2 ⊢
        exact Nat.le_trans h1 h2

theorem wmLe_next (wm : Option Nat) (fr : FetchResult)
    (h : tickMaxOk wm fr = true) : wmLe wm (nextWm wm fr) = true := by
  cases fr with
  | failure => exact wmLe_refl wm
  | response success l =>
    cases success with
    | false => exact wmLe_refl wm
    | true =>
      simp only [tickMaxOk] at h
      cases l with
      | nil => simpa [nextWm] using wmLe_refl wm
      | cons n l =>
        simp only [nextWm, List.length_cons, Nat.succ_pos, if_true]
        cases wm with
        | none => rfl
        | some v =>
          simp only [Bool.false_eq_true, if_false] at h ⊢
          simpa [wmLe] using h

theorem alreadySeen_of_not_truthy (wm : Option Nat) (i : Nat)
    (h : truthyOptNat wm = false) : alreadySeen wm i = false := by
  cases wm with
  | none => rfl
  | some v =>
    simp only [truthyOptNat] at h
    simp [alreadySeen, h]

theorem alreadySeen_some_iff (v i : Nat) :
    alreadySeen (some v) i = true ↔ v ≠ 0 ∧ i ≤ v := by
  simp [alreadySeen]

theorem alreadySeen_next (wm : Option Nat) (fr : FetchResult) (i : Nat)
    (hseen : alreadySeen wm i = true) (hok : tickMaxOk wm fr = true) :
    alreadySeen (nextWm wm fr) i = true := by
  cases wm with
  | none => simp [alreadySeen] at hseen
  | some v =>
    rcases (alreadySeen_some_iff v i).mp hseen with ⟨hv, hi⟩
    cases fr with
    | failure => exact hseen
    | response success l =>
      cases success with
      | false => exact hseen
      | true =>
        simp only [tickMaxOk] at hok
        cases l with
        | nil => simpa [nextWm] using hseen
        | cons n l =>
          simp only [nextWm, List.length_cons, Nat.succ_pos, if_true,
            Bool.false_eq_true, if_false]
          have hok2 : v ≤ batchMax (n :: l) := by simpa using hok
          refine (alreadySeen_some_iff _ _).mpr ⟨?_, Nat.le_trans hi hok2⟩
          intro hzero
          rw [hzero] at hok2
          exact hv (Nat.le_zero.mp hok2)

theorem countDisplays_tick_failure (st : ManagerState) (i : Nat) :
    countDisplays i (checkForNewNotifications st .failure).2 = 0 := rfl

theorem countDisplays_tick_unsuccessful (st : ManagerState) (l : List Notif) (i : Nat) :
    countDisplays i (checkForNewNotifications st (.response false l)).2 = 0 := rfl

theorem countDisplays_tick_success (st : ManagerState) (l : List Notif) (i : Nat) :
    countDisplays i (checkForNewNotifications st (.response true l)).2
      = countDisplays i (batchEffects st l) := by
  rw [check_effects_success]
  simp [countDisplays, List.filter_cons, isDisplayOfId]

theorem blocked_after_display (st : ManagerState) (l : List Notif) (i : Nat)
    (hids : idsOkBatch l = true)
    (hcount : countDisplays i (batchEffects st l) ≠ 0) :
    alreadySeen (nextWm st.lastNotificationId (.response true l)) i = true := by
  have hmem := countDisplays_batchEffects_mem st l i hcount
  cases l with
  | nil => simp at hmem
  | cons n l =>
    have hle : i ≤ batchMax (n :: l) := mem_id_le_batchMax _ i hmem
    have h1 : 1 ≤ i := by
      rcases List.mem_map.mp hmem with ⟨m, hm, rfl⟩
      have hall := ((Bool.and_eq_true _ _).mp hids).1
      have := List.all_eq_true.mp hall m hm
      simpa using this
    have hwm : nextWm st.lastNotificationId (.response true (n :: l))
        = some (batchMax (n :: l)) := by
      simp [nextWm]
    rw [hwm]
    exact (alreadySeen_some_iff _ _).mpr ⟨by omega, hle⟩

theorem runPolls_effects_cons (st : ManagerState) (fr : FetchResult)
    (rest : List FetchResult) :
    (runPolls st (fr :: rest)).2
      = (checkForNewNotifications st fr).2
        ++ (runPolls (checkForNewNotifications st fr).1 rest).2 := rfl

theorem runPolls_state_cons (st : ManagerState) (fr : FetchResult)
    (rest : List FetchResult) :
    (runPolls st (fr :: rest)).1
      = (runPolls (checkForNewNotifications st fr).1 rest).1 := rfl

theorem atMostOnce_aux (i : Nat) : ∀ (frs : List FetchResult) (st : ManagerState),
    goodRun st.lastNotificationId frs = true →
    countDisplays i (runPolls st frs).2 ≤ 1
      ∧ (alreadySeen st.lastNotificationId i = true →
          countDisplays i (runPolls st frs).2 = 0) := by
  intro frs
  induction frs with
  | nil =>
    intro st _
    exact ⟨Nat.zero_le 1, fun _ => rfl⟩
  | cons fr rest ih =>
    intro st hgood
    simp only [goodRun, Bool.and_eq_true] at hgood
    obtain ⟨⟨hbatch, hmax⟩, hrest⟩ := hgood
    have hwm1 : (checkForNewNotifications st fr).1.lastNotificationId
        = nextWm st.lastNotificationId fr := check_wm st fr
    have hIH := ih (checkForNewNotifications st fr).1 (by rw [hwm1]; exact hrest)
    rw [runPolls_effects_cons, countDisplays_append]
    have hblocked0 : alreadySeen st.lastNotificationId i = true →
        countDisplays i (checkForNewNotifications st fr).2 = 0 := by
      intro hseen
      cases fr with
      | failure => exact countDisplays_tick_failure st i
      | response success l =>
        cases success with
        | false => exact countDisplays_tick_unsuccessful st l i
        | true =>
          rw [countDisplays_tick_success]
          exact countDisplays_batchEffects_blocked st l i hseen
    constructor
    · by_cases hseen : alreadySeen st.lastNotificationId i = true
      · have hrest0 : countDisplays i (runPolls (checkForNewNotifications st fr).1 rest).2 = 0 := by
          apply hIH.2
          rw [hwm1]
          exact alreadySeen_next st.lastNotificationId fr i hseen hmax
        rw [hblocked0 hseen, hrest0]
        exact Nat.zero_le 1
      · by_cases hzero : countDisplays i (checkForNewNotifications st fr).2 = 0
        · rw [hzero, Nat.zero_add]
          exact hIH.1
        · cases fr with
          | failure => exact absurd (countDisplays_tick_failure st i) hzero
          | response success l =>
            cases success with
            | false => exact absurd (countDisplays_tick_unsuccessful st l i) hzero
            | true =>
              rw [countDisplays_tick_success] at hzero ⊢
              have hnodup : (l.map (fun n => n.notification_id)).Nodup := by
                simp only [idsOkBatch, Bool.and_eq_true] at hbatch
                exact of_decide_eq_true hbatch.2
              have hle1 := countDisplays_batchEffects_le_one st l i hnodup
              have hrest0 : countDisplays i
                  (runPolls (checkForNewNotifications st (.response true l)).1 rest).2 = 0 := by
                apply hIH.2
                rw [hwm1]
                exact blocked_after_display st l i hbatch hzero
              omega
    · intro hseen
      have hrest0 : countDisplays i (runPolls (checkForNewNotifications st fr).1 rest).2 = 0 := by
        apply hIH.2
        rw [hwm1]
        exact alreadySeen_next st.lastNotificationId fr i hseen hmax
      rw [hblocked0 hseen, hrest0]

theorem wm_monotone_aux : ∀ (frs : List FetchResult) (st : ManagerState),
    maxOkRun st.lastNotificationId frs = true →
    wmLe st.lastNotificationId (runPolls st frs).1.lastNotificationId = true := by
  intro frs
  induction frs with
  | nil =>
    intro st _
    exact wmLe_refl _
  | cons fr rest ih =>
    intro st hok
    simp only [maxOkRun, Bool.and_eq_true] at hok
    obtain ⟨hmax, hrest⟩ := hok
    rw [runPolls_state_cons]
    have h1 : wmLe st.lastNotificationId
        (checkForNewNotifications st fr).1.lastNotificationId = true := by
      rw [check_wm]
      exact wmLe_next st.lastNotificationId fr hmax
    have h2 := ih (checkForNewNotifications st fr).1 (by rw [check_wm]; exact hrest)
    exact wmLe_trans _ _ _ h1 h2

theorem displayedIds_playSound (st : ManagerState) :
    displayedIds (playSound st) = [] := by
  simp only [playSound]
  split <;> rfl

theorem displayedIds_batchEffects_all (st : ManagerState) (l : List Notif)
    (h1 : truthyOptNat st.lastNotificationId = false)
    (h2 : st.permission = "granted") :
    displayedIds (batchEffects st l) = l.map (fun n => n.notification_id) := by
  induction l with
  | nil => rfl
  | cons n l ih =>
    have hItem : displayedIds (pollItemEffects st n) = [n.notification_id] := by
      simp only [pollItemEffects,
        alreadySeen_of_not_truthy st.lastNotificationId n.notification_id h1,
        Bool.false_eq_true, if_false, showNotification, h2, bne_self_eq_false]
      have h3 : displayedIds (playSound st) = [] := displayedIds_playSound st
      simp only [displayedIds, List.filterMap_cons] at h3 ⊢
      simp [h3]
    have : batchEffects st (n :: l) = pollItemEffects st n ++ batchEffects st l := rfl
    rw [this, displayedIds_append, hItem, ih]
    rfl

/-! ## Frame lemmas: which operation writes which field -/

theorem fireTimers_permission (fr : FetchResult) :
    ∀ (ts : List Timer) (st : ManagerState),
    (fireTimers st ts fr).1.permission = st.permission := by
  intro ts
  induction ts with
  | nil => intro st; rfl
  | cons t ts ih =>
    intro st
    show (fireTimers (checkForNewNotifications st fr).1 ts fr).1.permission = st.permission
    rw [ih, check_permission]

theorem step_permission (w : World) (op : Op) :
    (step w op).1.manager.permission = w.manager.permission := by
  cases op with
  | poll fr => exact check_permission w.manager fr
  | showCall args => rfl
  | start fr =>
    show ((checkForNewNotifications w.manager fr).1).permission = w.manager.permission
    exact check_permission w.manager fr
  | stop =>
    simp only [step, stopMonitoring]
    cases w.manager.monitoringInterval with
    | none => rfl
    | some tid =>
      by_cases h : (tid != 0) = true
      · simp [h]
      · simp [h]
  | manual t title message jobId now => rfl
  | timeElapse fr => exact fireTimers_permission fr w.activeTimers w.manager

theorem runOps_permission : ∀ (ops : List Op) (w : World),
    (runOps w ops).1.manager.permission = w.manager.permission := by
  intro ops
  induction ops with
  | nil => intro w; rfl
  | cons op rest ih =>
    intro w
    show (runOps (step w op).1 rest).1.manager.permission = w.manager.permission
    rw [ih, step_permission]

/-! ## Fetch counting -/

theorem countFetches_playSound (st : ManagerState) :
    countFetches (playSound st) = 0 := by
  simp only [playSound]
  split <;> rfl

theorem countFetches_pollItem (st : ManagerState) (n : Notif) :
    countFetches (pollItemEffects st n) = 0 := by
  rw [pollItemEffects]
  split
  · rfl
  · rw [showNotification]
    split
    · rfl
    · have h := countFetches_playSound st
      simpa [countFetches, List.filter_cons, isFetch] using h

theorem countFetches_batchEffects (st : ManagerState) (l : List Notif) :
    countFetches (batchEffects st l) = 0 := by
  induction l with
  | nil => rfl
  | cons n l ih =>
    have : batchEffects st (n :: l) = pollItemEffects st n ++ batchEffects st l := rfl
    rw [this, countFetches_append, countFetches_pollItem, ih]

theorem countFetches_tick (st : ManagerState) (fr : FetchResult) :
    countFetches (checkForNewNotifications st fr).2 = 1 := by
  cases fr with
  | failure => rfl
  | response success l =>
    cases success with
    | false => rfl
    | true =>
      rw [check_effects_success]
      have h := countFetches_batchEffects st l
      simpa [countFetches, List.filter_cons, isFetch] using h

theorem countFetches_start (w : World) (fr : FetchResult) :
    countFetches (startMonitoring w fr).2 = 1 := by
  show countFetches
    (Effect.log "🔄 Starting notification monitoring..."
      :: (checkForNewNotifications w.manager fr).2
      ++ [Effect.log ("✅ Monitoring every "
            ++ toString ((checkForNewNotifications w.manager fr).1.checkInterval / 1000)
            ++ " seconds")]) = 1
  have h1 := countFetches_tick w.manager fr
  simp [countFetches, List.filter_cons, List.filter_append, isFetch] at h1 ⊢
  exact h1

/-! ## Timer table lemmas -/

theorem filter_ne_id_eq_nil (tid : Nat) :
    ∀ ts : List Timer, (∀ t ∈ ts, t.id = tid) →
      ts.filter (fun t => t.id != tid) = [] := by
  intro ts
  induction ts with
  | nil => intro _; rfl
  | cons t ts ih =>
    intro h
    have ht : t.id = tid := h t (List.mem_cons_self t ts)
    simp only [List.filter_cons, ht, bne_self_eq_false, Bool.false_eq_true, if_false]
    exact ih (fun u hu => h u (List.mem_cons_of_mem t hu))

theorem stop_timers_empty (w : World)
    (h : ∀ t ∈ w.activeTimers, w.manager.monitoringInterval = some t.id ∧ t.id ≠ 0) :
    (stopMonitoring w).1.activeTimers = [] := by
  cases hmi : w.manager.monitoringInterval with
  | none =>
    cases hts : w.activeTimers with
    | nil => simp [stopMonitoring, hmi, hts]
    | cons t ts =>
      have := (h t (by rw [hts]; exact List.mem_cons_self t ts)).1
      rw [hmi] at this
      cases this
  | some tid =>
    by_cases htid : tid = 0
    · subst htid
      cases hts : w.activeTimers with
      | nil => simp [stopMonitoring, hmi, hts]
      | cons t ts =>
        have ht := h t (by rw [hts]; exact List.mem_cons_self t ts)
        rw [hmi] at ht
        exact absurd (Option.some.inj ht.1).symm ht.2
    · have hb : (tid != 0) = true := by simpa using htid
      simp only [stopMonitoring, hmi, hb, if_true]
      exact filter_ne_id_eq_nil tid w.activeTimers
        (fun t ht => by
          have := (h t ht).1
          rw [hmi] at this
          exact (Option.some.inj this).symm)

theorem elapse_no_timers (w : World) (fr : FetchResult)
    (h : w.activeTimers = []) : elapse w fr = (w, []) := by
  obtain ⟨m, ts, nid⟩ := w
  simp only at h
  subst h
  rfl

theorem elapseRun_no_timers : ∀ (frs : List FetchResult) (w : World),
    w.activeTimers = [] → (elapseRun w frs).2 = [] := by
  intro frs
  induction frs with
  | nil => intro w _; rfl
  | cons fr rest ih =>
    intro w h
    show (elapse w fr).2 ++ (elapseRun (elapse w fr).1 rest).2 = []
    rw [elapse_no_timers w fr h]
    simpa using ih w h

theorem stop_idempotent (w : World) :
    (stopMonitoring (stopMonitoring w).1).1 = (stopMonitoring w).1 := by
  cases hmi : w.manager.monitoringInterval with
  | none => simp [stopMonitoring, hmi]
  | some tid =>
    by_cases htid : (tid != 0) = true
    · simp only [stopMonitoring, hmi, htid, if_true]
      simp [stopMonitoring, hmi, htid, List.filter_filter]
    · simp [stopMonitoring, hmi, htid]

theorem stop_never_started (w : World)
    (h : w.manager.monitoringInterval = none) : stopMonitoring w = (w, []) := by
  simp [stopMonitoring, h]

theorem start_permission (w : World) (fr : FetchResult) :
    (startMonitoring w fr).1.manager.permission = w.manager.permission := by
  show ((checkForNewNotifications w.manager fr).1).permission = w.manager.permission
  exact check_permission w.manager fr

/-! ## Claim theorems -/

/-- C3: whenever `this.permission` is anything other than `granted`,
`showNotification` only logs: it produces no constructed `Notification`
and plays no sound, whatever arguments the gateway or a caller hands it. -/
theorem claim3_denied_never_displays (st : ManagerState) (args : ShowArgs)
    (h : st.permission ≠ "granted") :
    showNotification st args
        = [Effect.log "⊘ Cannot show notification - permission not granted"]
      ∧ (showNotification st args).all (fun e => !isDisplay e && !isSound e) = true := by
  have hb : (st.permission != "granted") = true := by simpa [bne_iff_ne] using h
  refine ⟨?_, ?_⟩
  · simp [showNotification, hb]
  · simp [showNotification, hb, isDisplay, isSound]

/-- Witness for C3 at a concrete denied manager and concrete arguments. -/
theorem claim3_denied_never_displays_witness :
    showNotification (mkManager "denied")
        { title := "T", body := "B", icon := "🔔", tag := "x"
          data := { notification_id := none, job_id := none, url := none } }
        = [Effect.log "⊘ Cannot show notification - permission not granted"]
      ∧ (showNotification (mkManager "denied")
          { title := "T", body := "B", icon := "🔔", tag := "x"
            data := { notification_id := none, job_id := none, url := none } }).all
          (fun e => !isDisplay e && !isSound e) = true :=
  claim3_denied_never_displays (mkManager "denied") _ (by decide)

/-- C4 counterexample: a `success:false` response leaves the state
unchanged but is NOT logged (the code hits the silent `return` of
line 367 before any `console` call), contradicting the claim that every
poll failure is logged and that `success:false` and a transport failure
are treated identically. -/
theorem claim4_cex :
    (checkForNewNotifications grantedManager (.response false [nf 5])).1 = grantedManager
      ∧ (checkForNewNotifications grantedManager (.response false [nf 5])).2.any isLog
          = false := by
  exact ⟨rfl, rfl⟩

/-- C4 as amended: every poll failure (thrown transport/parse error or a
`success:false` body) leaves the whole manager state — watermark,
permission, interval handle — and the world timer table unchanged, with
no retry; a thrown error is logged, while `success:false` returns with
no log at all. -/
theorem claim4_failure_leaves_state :
    ∀ st : ManagerState,
      ((checkForNewNotifications st .failure).1 = st
        ∧ (checkForNewNotifications st .failure).2.any isLog = true
        ∧ countFetches (checkForNewNotifications st .failure).2 = 1)
      ∧ (∀ l : List Notif,
          (checkForNewNotifications st (.response false l)).1 = st
            ∧ (checkForNewNotifications st (.response false l)).2.any isLog = false
            ∧ countFetches (checkForNewNotifications st (.response false l)).2 = 1)
      ∧ (∀ w : World, (step w (.poll .failure)).1 = w
          ∧ ∀ l : List Notif, (step w (.poll (.response false l))).1 = w) := by
  intro st
  refine ⟨⟨rfl, rfl, rfl⟩, fun l => ⟨rfl, rfl, rfl⟩, fun w => ⟨rfl, fun l => rfl⟩⟩

/-- C8: `triggerNotification` only fans out to `showNotification`; it
performs no assignment, so permission, watermark and the timer table are
all exactly as before. -/
theorem claim8_manual_no_mutation (w : World) (t title message : String)
    (jobId : Option Nat) (now : Nat) :
    (triggerNotification w t title message jobId now).1 = w := rfl

/-- C10: no operation among poll / show / start / stop / manual trigger /
timer elapse ever writes `this.permission`, so any sequence of them
preserves it; the only writers are the constructor (which copies the
platform value) and `requestPermission` (which stores the user response). -/
theorem claim10_permission_only_written_by_request :
    (∀ (w : World) (ops : List Op),
        (runOps w ops).1.manager.permission = w.manager.permission)
      ∧ (∀ p : String, (mkManager p).permission = p)
      ∧ (∀ (w : World) (resp : String) (fr : FetchResult),
          (requestPermission w resp fr).1.manager.permission = resp) := by
  refine ⟨fun w ops => runOps_permission ops w, fun p => rfl, ?_⟩
  intro w resp fr
  by_cases h : resp = "granted"
  · subst h
    show (startMonitoring { w with manager := { w.manager with permission := "granted" } }
        fr).1.manager.permission = "granted"
    rw [start_permission]
  · simp only [requestPermission, if_neg h]

theorem countFetches_fireTimers (fr : FetchResult) :
    ∀ (ts : List Timer) (st : ManagerState),
    countFetches (fireTimers st ts fr).2 = ts.length := by
  intro ts
  induction ts with
  | nil => intro st; rfl
  | cons t ts ih =>
    intro st
    show countFetches ((checkForNewNotifications st fr).2
      ++ (fireTimers (checkForNewNotifications st fr).1 ts fr).2) = ts.length + 1
    rw [countFetches_append, countFetches_tick, ih]
    omega

/-- C1 counterexample: starting from a fresh granted manager, a batch
containing only id 5 sets the watermark to 5, and a following successful
batch containing only id 3 overwrites it with `Math.max` of that batch
alone, moving the watermark DOWN from 5 to 3 — the tick ends with a
watermark strictly below the one it started with. -/
theorem claim1_cex :
    (runPolls grantedManager [.response true [nf 5]]).1.lastNotificationId = some 5
      ∧ (runPolls grantedManager
          [.response true [nf 5], .response true [nf 3]]).1.lastNotificationId = some 3
      ∧ wmLe (some 5) (some 3) = false := by decide

/-- C1 as amended: the watermark is monotonically non-decreasing across
poll ticks PROVIDED every successful non-empty batch has maximum id at
least the watermark the run has reached (`maxOkRun`); without that
proviso line 400 can lower it, as `claim1_cex` shows. -/
theorem claim1_watermark_monotone (st : ManagerState) (frs : List FetchResult)
    (h : maxOkRun st.lastNotificationId frs = true) :
    wmLe st.lastNotificationId (runPolls st frs).1.lastNotificationId = true :=
  wm_monotone_aux frs st h

/-- Witness for C1 on the spec §8 scenario: batches `[3]` then `[7,4]`. -/
theorem claim1_watermark_monotone_witness :
    maxOkRun grantedManager.lastNotificationId
        [.response true [nf 3], .response true [nf 7, nf 4]] = true
      ∧ wmLe grantedManager.lastNotificationId
          (runPolls grantedManager
            [.response true [nf 3], .response true [nf 7, nf 4]]).1.lastNotificationId
          = true :=
  ⟨by decide, claim1_watermark_monotone grantedManager _ (by decide)⟩

/-- C2 counterexample: over the batch sequence `[5]`, `[3]`, `[5]` the
item with id 5 is displayed twice — after the `[3]` batch drags the
watermark down to 3, the third tick sees `5 > 3` and shows id 5 again,
even though id 5 had already been at or below the watermark. -/
theorem claim2_cex :
    countDisplays 5 (runPolls grantedManager
        [.response true [nf 5], .response true [nf 3], .response true [nf 5]]).2 = 2
      ∧ ¬ countDisplays 5 (runPolls grantedManager
          [.response true [nf 5], .response true [nf 3], .response true [nf 5]]).2 ≤ 1 := by
  decide

/-- C2 as amended: each notification id is displayed at most once per
client instance PROVIDED every successful batch has positive ids, no id
repeated inside one batch, and maximum id at least the current watermark
(`goodRun`); dropping any proviso allows re-display (watermark drop:
`claim2_cex`; id 0 resets truthiness: see C9). -/
theorem claim2_at_most_once (st : ManagerState) (frs : List FetchResult) (i : Nat)
    (h : goodRun st.lastNotificationId frs = true) :
    countDisplays i (runPolls st frs).2 ≤ 1 :=
  (atMostOnce_aux i frs st h).1

/-- Witness for C2 on the spec §8 scenario `[3]` then `[7,4]`: both 7 and
4 are displayed, each exactly once. -/
theorem claim2_at_most_once_witness :
    goodRun grantedManager.lastNotificationId
        [.response true [nf 3], .response true [nf 7, nf 4]] = true
      ∧ countDisplays 7 (runPolls grantedManager
          [.response true [nf 3], .response true [nf 7, nf 4]]).2 ≤ 1
      ∧ countDisplays 4 (runPolls grantedManager
          [.response true [nf 3], .response true [nf 7, nf 4]]).2 ≤ 1 :=
  ⟨by decide, claim2_at_most_once grantedManager _ 7 (by decide),
    claim2_at_most_once grantedManager _ 4 (by decide)⟩

/-- C5: under the single-session timer invariant (every active interval
timer is the one whose nonzero handle the manager stores),
`stopMonitoring` cancels the scheduled timer, so arbitrarily many
subsequent interval periods fire zero fetches; it is idempotent on the
world state; and it is a no-op when polling was never started. -/
theorem claim5_stop_cancels_timer (w : World)
    (h : ∀ t ∈ w.activeTimers, w.manager.monitoringInterval = some t.id ∧ t.id ≠ 0) :
    (∀ frs : List FetchResult,
        countFetches (elapseRun (stopMonitoring w).1 frs).2 = 0)
      ∧ (stopMonitoring (stopMonitoring w).1).1 = (stopMonitoring w).1
      ∧ (w.manager.monitoringInterval = none → stopMonitoring w = (w, [])) := by
  refine ⟨?_, stop_idempotent w, stop_never_started w⟩
  intro frs
  rw [elapseRun_no_timers frs (stopMonitoring w).1 (stop_timers_empty w h)]
  rfl

/-- Witness for C5: a monitored world, stopped, then three interval
periods elapse with batches available — zero fetches happen. -/
theorem claim5_stop_cancels_timer_witness :
    countFetches (elapseRun (stopMonitoring monitoredWorld).1
        [.response true [nf 5], .failure, .response true [nf 6]]).2 = 0
      ∧ (stopMonitoring (stopMonitoring monitoredWorld).1).1
          = (stopMonitoring monitoredWorld).1 :=
  ⟨(claim5_stop_cancels_timer monitoredWorld (by decide)).1 _,
   (claim5_stop_cancels_timer monitoredWorld (by decide)).2.1⟩

/-- C6: `startMonitoring` issues exactly one fetch during the call itself
(the initial check, before any interval elapses), registers an interval
timer at the manager's `checkInterval` and stores its handle; the
constructor fixes `checkInterval` at 30000 ms (30 seconds); and once a
fresh world has been started, each elapsed interval fires exactly one
further fetch. -/
theorem claim6_start_fetches_immediately :
    (∀ (w : World) (fr : FetchResult),
        countFetches (startMonitoring w fr).2 = 1
        ∧ (startMonitoring w fr).1.manager.monitoringInterval = some w.nextTimerId
        ∧ ({ id := w.nextTimerId, intervalMs := w.manager.checkInterval } : Timer)
            ∈ (startMonitoring w fr).1.activeTimers)
      ∧ (∀ p : String, (mkManager p).checkInterval = 30000)
      ∧ (∀ (p : String) (fr fr2 : FetchResult),
          countFetches (elapse (startMonitoring (mkWorld p) fr).1 fr2).2 = 1) := by
  refine ⟨?_, fun p => rfl, ?_⟩
  · intro w fr
    refine ⟨countFetches_start w fr, rfl, ?_⟩
    show _ ∈ ({ id := w.nextTimerId
                intervalMs := (checkForNewNotifications w.manager fr).1.checkInterval } : Timer)
        :: w.activeTimers
    rw [check_interval_eq]
    exact List.mem_cons_self _ _
  · intro p fr fr2
    show countFetches (fireTimers (startMonitoring (mkWorld p) fr).1.manager
      (startMonitoring (mkWorld p) fr).1.activeTimers fr2).2 = 1
    rw [countFetches_fireTimers]
    rfl

/-- C7 counterexample: `deadline` is not one of the four specified
categories, yet `triggerNotification` maps it to the alarm-clock glyph
rather than falling back to the bell; the poll path and the manual path
even disagree on it. -/
theorem claim7_cex :
    manualIcon "deadline" = "⏰"
      ∧ ("⏰" : String) ≠ "🔔"
      ∧ pollIcon "deadline" = "🔔" := by decide

/-- C7 as amended: icon selection is a pure mapping on both paths, and
the two paths agree on critical→flame, urgent→bolt, new_job→briefcase
and the bell default; but the manual-trigger path additionally maps
deadline→alarm-clock, success→check and info→bulb, and only categories
outside its six keys fall back to the bell, while the poll path sends
every category outside its three keys to the bell. -/
theorem claim7_icon_mapping :
    (pollIcon "critical" = "🔥" ∧ pollIcon "urgent" = "⚡"
      ∧ pollIcon "new_job" = "💼" ∧ pollIcon "default" = "🔔")
    ∧ (∀ t : String, t ≠ "critical" → t ≠ "urgent" → t ≠ "new_job" →
        pollIcon t = "🔔")
    ∧ (manualIcon "critical" = "🔥" ∧ manualIcon "urgent" = "⚡"
      ∧ manualIcon "new_job" = "💼" ∧ manualIcon "default" = "🔔"
      ∧ manualIcon "deadline" = "⏰" ∧ manualIcon "success" = "✅"
      ∧ manualIcon "info" = "💡")
    ∧ (∀ t : String, t ≠ "critical" → t ≠ "urgent" → t ≠ "new_job" →
        t ≠ "deadline" → t ≠ "success" → t ≠ "info" → manualIcon t = "🔔") := by
  refine ⟨by decide, ?_, by decide, ?_⟩
  · intro t h1 h2 h3
    simp [pollIcon, h1, h2, h3]
  · intro t h1 h2 h3 h4 h5 h6
    simp [manualIcon, manualIcons, h1, h2, h3, h4, h5, h6]

/-- Witness for C7 at a category outside every mapping. -/
theorem claim7_icon_mapping_witness :
    pollIcon "weather" = "🔔" ∧ manualIcon "weather" = "🔔" :=
  ⟨claim7_icon_mapping.2.1 "weather" (by decide) (by decide) (by decide),
   claim7_icon_mapping.2.2.2 "weather" (by decide) (by decide) (by decide)
     (by decide) (by decide) (by decide)⟩

/-- C9: when the stored watermark is falsy (`null` or `0`) the
already-seen filter is skipped and a granted manager displays every item
of a successful batch, whatever the ids; and a non-empty batch whose
maximum id is 0 writes watermark `0`, which is falsy again — so an item
with id 0 can be re-displayed on every subsequent tick. -/
theorem claim9_falsy_watermark_shows_all (st : ManagerState) (l : List Notif)
    (h1 : truthyOptNat st.lastNotificationId = false)
    (h2 : st.permission = "granted") :
    displayedIds (checkForNewNotifications st (.response true l)).2
        = l.map (fun n => n.notification_id)
      ∧ (l ≠ [] → batchMax l = 0 →
          truthyOptNat
            (checkForNewNotifications st (.response true l)).1.lastNotificationId
            = false) := by
  constructor
  · rw [check_effects_success]
    have hb := displayedIds_batchEffects_all st l h1 h2
    simpa [displayedIds, List.filterMap_cons] using hb
  · intro hne h0
    rw [check_wm]
    cases l with
    | nil => exact absurd rfl hne
    | cons n l =>
      simp [nextWm, h0, truthyOptNat]

/-- Witness for C9: the batch `[id 0]` is displayed on a fresh tick, sets
the watermark to `some 0`, and on the next tick id 0 is displayed again
(two displays of the same id across two ticks). -/
theorem claim9_falsy_watermark_shows_all_witness :
    displayedIds (checkForNewNotifications
        (runPolls grantedManager [.response true [nf 0]]).1 (.response true [nf 0])).2
        = [0]
      ∧ (runPolls grantedManager [.response true [nf 0]]).1.lastNotificationId = some 0
      ∧ countDisplays 0 (runPolls grantedManager
          [.response true [nf 0], .response true [nf 0]]).2 = 2 :=
  ⟨((claim9_falsy_watermark_shows_all
        (runPolls grantedManager [.response true [nf 0]]).1 [nf 0]
        (by decide) (by decide)).1).trans (by decide),
   by decide, by decide⟩
